import Mathlib

/-!
Verification of the two components of this repository against their
specification: the Discord commit-notification helper
(`.github/scripts/discord-commit-helper.py`) and the Kokoro TTS backend
service (`tts-backend/app.py`).

Python strings are embedded as `List Char` (a Python `str` is a sequence
of Unicode code points, and `len` / slicing operate on code points).
Byte strings are embedded as `List Nat`.
-/

/-! ## Python string primitives -/

/-- One step of Python `str.replace` with an explicit fuel argument.
Scans left to right; on a match emits the replacement and continues
after the matched occurrence (the replacement is not rescanned), which
is exactly CPython's semantics for a non-empty pattern.  A fuel of
`s.length` is always sufficient since every step consumes at least one
character of the subject string. -/
def replaceFuel (pat rep : List Char) : Nat → List Char → List Char
  | _, [] => []
  | 0, s => s
  | fuel + 1, c :: cs =>
    if List.isPrefixOf pat (c :: cs) then
      rep ++ replaceFuel pat rep fuel (List.drop pat.length (c :: cs))
    else
      c :: replaceFuel pat rep fuel cs

/-- Python `s.replace(pat, rep)` for a non-empty pattern. -/
def pyReplace (s pat rep : List Char) : List Char :=
  replaceFuel pat rep s.length s

/-- Python `s.split("\n")`: the list of newline-separated pieces.
Always returns at least one piece; `"".split("\n") == [""]`. -/
def splitNL : List Char → List (List Char)
  | [] => [[]]
  | c :: cs =>
    match splitNL cs with
    | [] => [[c]]
    | h :: t => if c = '\n' then [] :: h :: t else (c :: h) :: t

/-- Python `"\n".join`-style joining with an arbitrary separator string. -/
def joinSep (sep : List Char) : List (List Char) → List Char
  | [] => []
  | [x] => x
  | x :: y :: ys => x ++ sep ++ joinSep sep (y :: ys)

/-! ## Commit-Notifier (`discord-commit-helper.py`) -/

/-- One commit record of the event payload (`id`, `message`, `url`). -/
structure Commit where
  id : List Char
  message : List Char
  url : List Char
deriving DecidableEq

/-- Line 21: `msg = (c.get("message", "").split("\n")[0])[:120]`. -/
def displayMsg (message : List Char) : List Char :=
  ((splitNL message).headD []).take 120

/-- Lines 22-26: rewrite the API commit URL to the public browsable form:
`url.replace("api.github.com/repos", "github.com").replace("/commits/", "/commit/")`. -/
def rewriteUrl (url : List Char) : List Char :=
  pyReplace (pyReplace url "api.github.com/repos".data "github.com".data)
    "/commits/".data "/commit/".data

/-- Lines 20-28 loop body: the display line for one commit record,
`f"- [`{sha}`]({url}) {msg}"` with `sha = c.get("id", "")[:7]`. -/
def formatCommit (c : Commit) : List Char :=
  "- [`".data ++ c.id.take 7 ++ "`](".data ++ rewriteUrl c.url ++ ") ".data
    ++ displayMsg c.message

/-- Lines 18-29: take the first 5 commit records, format each, and join
with newlines; a placeholder when no lines were produced. -/
def formatCommits (commits : List Commit) : List Char :=
  let lines := (commits.take 5).map formatCommit
  if lines.isEmpty then "- (no commits found)".data else joinSep ['\n'] lines

/-- Lines 12-29 of `get_commits`: the text printed to standard output,
as a function of the `GITHUB_EVENT_PATH` environment variable (falsy
when unset or empty) and the parsed `commits` array of the payload. -/
def get_commits (eventPath : Option (List Char)) (commits : List Commit) :
    List Char :=
  match eventPath with
  | none => "- (no commits found)".data
  | some p => if p.isEmpty then "- (no commits found)".data else formatCommits commits

/-- Lines 40-42 of `post_webhook`: the content actually posted, after the
Discord 2000-character message-limit truncation. -/
def post_webhook_content (content : List Char) : List Char :=
  if 2000 < content.length then content.take 1997 ++ "...".data else content

/-! ## Synthesis Service (`tts-backend/app.py`) -/

/-- The numpy dtype of the engine's audio buffers, as far as the handler
inspects it (`full_audio.dtype != np.float32`). -/
inductive Dtype where
  | float32
  | other
deriving DecidableEq

/-- One `(gs, ps, audio)` tuple yielded by the Kokoro generator; `audio`
is `None` or a buffer of samples of type `α`. -/
structure Chunk (α : Type) where
  gs : List Char
  ps : List Char
  audio : Option (List α)
deriving DecidableEq

/-- The full sequence of tuples produced by one engine invocation,
together with the dtype of the audio buffers. -/
structure EngineOutput (α : Type) where
  dtype : Dtype
  chunks : List (Chunk α)
deriving DecidableEq

/-- The engine handle: invoked with `(text, voice)`; either yields its
chunk sequence or raises an exception carrying a message string. -/
abbrev Engine (α : Type) : Type :=
  List Char → List Char → Except (List Char) (EngineOutput α)

/-- The `TTSRequest` pydantic model (line 55-58). -/
structure TTSRequest where
  text : List Char
  voice : List Char
  lang_code : List Char
deriving DecidableEq

/-- The successful `Response(...)` of lines 152-159: body bytes, media
type, and the two explicit headers. -/
structure SynthResponse where
  content : List Nat
  media_type : List Char
  content_disposition : List Char
  content_length : Nat
deriving DecidableEq

/-- The observable outcome of one `/synthesize` invocation: an
`HTTPException` with status and detail, or the audio response. -/
inductive SynthResult where
  | failure (status : Nat) (detail : List Char)
  | success (resp : SynthResponse)
deriving DecidableEq

/-- Python `str.strip()` whitespace test, restricted to the ASCII
whitespace characters (space, tab, newline, carriage return, vertical
tab, form feed). -/
def isPySpace (c : Char) : Bool :=
  c = ' ' || c = '\t' || c = '\n' || c = '\r' || c = Char.ofNat 11 || c = Char.ofNat 12

/-- Python `s.strip()`: remove leading and trailing whitespace. -/
def pyStrip (s : List Char) : List Char :=
  ((s.dropWhile isPySpace).reverse.dropWhile isPySpace).reverse

/-- Loop body of lines 122-124: append the chunk's audio when it is
neither `None` nor empty (`if audio is not None and len(audio) > 0`). -/
def collectStep (acc : List (List α)) (c : Chunk α) : List (List α) :=
  match c.audio with
  | some a => if 0 < a.length then acc ++ [a] else acc
  | none => acc

/-- Lines 118-124: the `audio_chunks` list after draining the generator. -/
def collectChunks (cs : List (Chunk α)) : List (List α) :=
  cs.foldl collectStep []

/-- Lines 136-138: `astype(np.float32)` applied when the concatenated
buffer's dtype is not already float32; the per-sample cast is the
external numpy conversion, abstracted as `toF32`. -/
def convertF32 (toF32 : α → α) (dt : Dtype) (samples : List α) : List α :=
  if dt ≠ Dtype.float32 then samples.map toF32 else samples

/-- Little-endian 16-bit field of a RIFF header. -/
def u16le (n : Nat) : List Nat :=
  [n % 256, n / 256 % 256]

/-- Little-endian 32-bit field of a RIFF header. -/
def u32le (n : Nat) : List Nat :=
  [n % 256, n / 256 % 256, n / 65536 % 256, n / 16777216 % 256]

/-- Modelled from the spec: the first 24 bytes of the WAV container
written by the external `soundfile.write` call ("encodes as a WAV
container at 24 kHz"): the ASCII tags "RIFF", "WAVE" and "fmt ", the
RIFF size field, the fmt-chunk size (16), the audio format and channel
count of the library's default WAV subtype (16-bit mono PCM). -/
def wavHead (dataLen : Nat) : List Nat :=
  [82, 73, 70, 70] ++ u32le (36 + dataLen) ++ [87, 65, 86, 69]
    ++ [102, 109, 116, 32] ++ u32le 16 ++ u16le 1 ++ u16le 1

/-- Modelled from the spec: the complete WAV container written by the
external `soundfile.write` call for a mono buffer at the given sample
rate.  The sample-rate field occupies bytes 24-27; `enc` abstracts the
library's per-sample byte encoding; the "data" chunk holds the encoded
samples. -/
def wavBytes (enc : α → List Nat) (sampleRate : Nat) (samples : List α) : List Nat :=
  wavHead ((samples.map enc).flatten).length ++
    (u32le sampleRate ++ u32le (sampleRate * 2) ++ u16le 2 ++ u16le 16
      ++ [100, 97, 116, 97] ++ u32le ((samples.map enc).flatten).length
      ++ (samples.map enc).flatten)

/-- Python `str(e)` for a fastapi `HTTPException`:
`f"{status_code}: {detail}"`. -/
def httpExcStr (status : Nat) (detail : List Char) : List Char :=
  (Nat.repr status).data ++ ": ".data ++ detail

/-- Lines 161-166: the `except Exception` branch wraps the caught
exception's text into the 500 detail. -/
def wrapMsg (e : List Char) : List Char :=
  "Speech synthesis failed: ".data ++ e

/-- Lines 112-166: the `try`/`except` part of the handler, as a function
of the engine invocation's outcome.  The inner
`HTTPException(500, "No audio generated from text")` of lines 126-130 is
raised inside the `try` block, so the `except Exception` branch catches
and re-wraps it, like any exception the engine iteration raises. -/
def runSynthesis (toF32 : α → α) (enc : α → List Nat)
    (r : Except (List Char) (EngineOutput α)) : SynthResult :=
  match r with
  | Except.error msg => SynthResult.failure 500 (wrapMsg msg)
  | Except.ok out =>
    if (collectChunks out.chunks).isEmpty then
      SynthResult.failure 500
        (wrapMsg (httpExcStr 500 "No audio generated from text".data))
    else
      SynthResult.success
        { content := wavBytes enc 24000
            (convertF32 toF32 out.dtype (collectChunks out.chunks).flatten)
          media_type := "audio/wav".data
          content_disposition := "attachment; filename=tts_output.wav".data
          content_length := (wavBytes enc 24000
            (convertF32 toF32 out.dtype (collectChunks out.chunks).flatten)).length }

/-- Lines 83-166: the `/synthesize` handler `synthesize_speech`.
`pipeline` is the global engine handle (`None` when initialization
failed); the guards mirror lines 94-110 in source order. -/
def synthesize_speech (toF32 : α → α) (enc : α → List Nat)
    (pipeline : Option (Engine α)) (req : TTSRequest) : SynthResult :=
  match pipeline with
  | none =>
    SynthResult.failure 503
      "TTS pipeline not initialized. Please wait for service to start.".data
  | some engine =>
    if req.text = [] ∨ pyStrip req.text = [] then
      SynthResult.failure 400 "Text cannot be empty".data
    else if 5000 < req.text.length then
      SynthResult.failure 400 "Text too long (max 5000 characters)".data
    else
      runSynthesis toF32 enc (engine req.text req.voice)

/-! ## Spec-side characterizations and helper lemmas -/

/-- Spec-side description of the collected audio: the non-empty,
non-`None` segments, in yield order. -/
def segOf (c : Chunk α) : Option (List α) :=
  match c.audio with
  | some a => if 0 < a.length then some a else none
  | none => none

/-- Spec-side description of `audio_chunks`: "concatenates all non-empty
segments in yield order". -/
def specSegments (cs : List (Chunk α)) : List (List α) :=
  cs.filterMap segOf

/-- No occurrence of `pat` starts strictly inside `a` when scanning the
string `a ++ rest` (occurrences may extend past `a` into `rest`). -/
def noMatchInto (pat : List Char) : List Char → List Char → Bool
  | [], _ => true
  | c :: a2, rest => !(List.isPrefixOf pat ((c :: a2) ++ rest)) && noMatchInto pat a2 rest

/-- The parts of a decomposition are clean: no occurrence of `pat`
starts inside any part (so the separator copies between the parts are
exactly the occurrences of `pat` in the joined string). -/
def cleanJoin (pat : List Char) : List (List Char) → Bool
  | [] => true
  | [x] => noMatchInto pat x []
  | x :: y :: ys => noMatchInto pat x (pat ++ joinSep pat (y :: ys)) && cleanJoin pat (y :: ys)

/-! ## Concrete inputs used by witnesses and counterexamples -/

/-- A six-commit payload whose first record's id contains a newline
character (a 7-character id, so `[:7]` keeps the newline). -/
def newlinePayload : List Commit :=
  [{ id := "x\nyzzzz".data, message := "m1".data, url := "u1".data },
   { id := "2222222".data, message := "m2".data, url := "u2".data },
   { id := "3333333".data, message := "m3".data, url := "u3".data },
   { id := "4444444".data, message := "m4".data, url := "u4".data },
   { id := "5555555".data, message := "m5".data, url := "u5".data },
   { id := "6666666".data, message := "m6".data, url := "u6".data }]

/-- A six-commit payload with newline-free ids, messages and urls. -/
def sixCommitPayload : List Commit :=
  [{ id := "1111111".data, message := "m1".data, url := "u1".data },
   { id := "2222222".data, message := "m2".data, url := "u2".data },
   { id := "3333333".data, message := "m3".data, url := "u3".data },
   { id := "4444444".data, message := "m4".data, url := "u4".data },
   { id := "5555555".data, message := "m5".data, url := "u5".data },
   { id := "6666666".data, message := "m6".data, url := "u6".data }]

/-- A multi-line commit message of 123 characters whose first line has
only one character. -/
def shortFirstLineMsg : List Char :=
  'a' :: '\n' :: List.replicate 121 'b'

/-- A 121-character single line, used as the long first line of a
multi-line message. -/
def longFirstLine : List Char :=
  List.replicate 121 'b'

/-- Decomposition of a concrete API commit URL along the pattern
`api.github.com/repos`. -/
def urlPartsA : List (List Char) :=
  ["https://".data, "/o/r/commits/abc".data]

/-- Decomposition of the intermediate rewritten URL along the pattern
`/commits/`. -/
def urlPartsB : List (List Char) :=
  ["https://github.com/o/r".data, "abc".data]

/-- Identity sample cast for witnesses over `Nat` samples. -/
def natId : Nat → Nat :=
  fun n => n

/-- A concrete per-sample byte encoding for witnesses. -/
def natEnc : Nat → List Nat :=
  fun n => [n % 256, n / 256 % 256]

/-- A concrete engine output with one `None`, one empty and two
non-empty segments. -/
def okOut : EngineOutput Nat :=
  { dtype := Dtype.float32
    chunks := [{ gs := [], ps := [], audio := some [1, 2, 3] },
               { gs := [], ps := [], audio := none },
               { gs := [], ps := [], audio := some [] },
               { gs := [], ps := [], audio := some [4] }] }

/-- An engine yielding `okOut` on every invocation. -/
def okEngine : Engine Nat :=
  fun _ _ => Except.ok okOut

/-- Whether the Content-Length header of a returned response equals the
byte length of the returned body (vacuous for failures). -/
def contentLengthOk : SynthResult → Bool
  | SynthResult.failure _ _ => true
  | SynthResult.success resp => resp.content_length == resp.content.length

/-- An engine yielding only `None` and empty segments. -/
def emptyEngine : Engine Nat :=
  fun _ _ => Except.ok
    { dtype := Dtype.float32
      chunks := [{ gs := [], ps := [], audio := none },
                 { gs := [], ps := [], audio := some [] }] }

/-- An engine whose invocation raises an exception. -/
def errEngine : Engine Nat :=
  fun _ _ => Except.error "boom".data

/-- A small valid request. -/
def reqHi : TTSRequest :=
  { text := "hi".data, voice := "af_heart".data, lang_code := "a".data }

/-- A whitespace-only request. -/
def reqBlank : TTSRequest :=
  { text := "   ".data, voice := "af_heart".data, lang_code := "a".data }

/-- An over-long request of 5001 characters. -/
def reqLong : TTSRequest :=
  { text := List.replicate 5001 'a', voice := "af_heart".data, lang_code := "a".data }

theorem foldl_collectStep (cs : List (Chunk α)) :
    ∀ acc : List (List α), cs.foldl collectStep acc = acc ++ specSegments cs := by
  induction cs with
  | nil => intro acc; simp [specSegments]
  | cons c cs ih =>
    intro acc
    simp only [List.foldl_cons, ih, specSegments, List.filterMap_cons]
    cases h : c.audio with
    | none => simp [collectStep, segOf, h]
    | some a =>
      by_cases hl : 0 < a.length
      · simp [collectStep, segOf, h, hl]
      · simp [collectStep, segOf, h, hl]

/-- The source's accumulator loop collects exactly the non-empty segments
in yield order. -/
theorem collectChunks_eq_specSegments (cs : List (Chunk α)) :
    collectChunks cs = specSegments cs := by
  simpa using foldl_collectStep cs []

theorem wavHead_length (n : Nat) : (wavHead n).length = 24 := by
  simp [wavHead, u32le, u16le]

/-- Bytes 24-27 of the WAV container hold the little-endian sample rate. -/
theorem wavBytes_sampleRate_field (enc : α → List Nat) (sr : Nat) (samples : List α) :
    ((wavBytes enc sr samples).drop 24).take 4 = u32le sr := by
  unfold wavBytes
  rw [List.drop_left' (wavHead_length _)]
  simp only [List.append_assoc]
  rw [List.take_left' (by simp [u32le])]

/-- A validated request reaches the engine invocation. -/
theorem synthesize_speech_valid (toF32 : α → α) (enc : α → List Nat)
    (engine : Engine α) (req : TTSRequest)
    (h1 : req.text ≠ []) (h2 : pyStrip req.text ≠ []) (h3 : req.text.length ≤ 5000) :
    synthesize_speech toF32 enc (some engine) req =
      runSynthesis toF32 enc (engine req.text req.voice) := by
  simp only [synthesize_speech]
  rw [if_neg (by simp [h1, h2]), if_neg (by omega)]

theorem splitNL_ne_nil (s : List Char) : splitNL s ≠ [] := by
  cases s with
  | nil => simp [splitNL]
  | cons c cs =>
    cases h : splitNL cs with
    | nil => simp [splitNL, h]
    | cons x t =>
      simp only [splitNL, h]
      split <;> simp

theorem splitNL_no_newline (x : List Char) (h : '\n' ∉ x) : splitNL x = [x] := by
  induction x with
  | nil => rfl
  | cons c cs ih =>
    have hc : c ≠ '\n' := fun hce => h (hce ▸ List.mem_cons_self c cs)
    have hcs : '\n' ∉ cs := fun hm => h (List.mem_cons_of_mem c hm)
    simp [splitNL, ih hcs, hc]

theorem splitNL_append_newline (x s : List Char) (h : '\n' ∉ x) :
    splitNL (x ++ '\n' :: s) = x :: splitNL s := by
  induction x with
  | nil =>
    cases hs : splitNL s with
    | nil => exact absurd hs (splitNL_ne_nil s)
    | cons a t => simp [splitNL, hs]
  | cons c x' ih =>
    have hc : c ≠ '\n' := fun hce => h (hce ▸ List.mem_cons_self c x')
    have hx' : '\n' ∉ x' := fun hm => h (List.mem_cons_of_mem c hm)
    simp only [List.cons_append, splitNL, List.append_eq]
    rw [ih hx']
    simp [hc]

/-- `"\n".join` followed by splitting on newlines recovers the parts,
provided no part contains a newline itself. -/
theorem splitNL_joinSep (parts : List (List Char)) (hne : parts ≠ [])
    (h : ∀ p ∈ parts, '\n' ∉ p) :
    splitNL (joinSep ['\n'] parts) = parts := by
  induction parts with
  | nil => exact absurd rfl hne
  | cons x xs ih =>
    cases xs with
    | nil =>
      simp only [joinSep]
      exact splitNL_no_newline x (h x (List.mem_cons_self x []))
    | cons y ys =>
      have hx : '\n' ∉ x := h x (List.mem_cons_self x (y :: ys))
      have hrest : ∀ p ∈ y :: ys, '\n' ∉ p := fun p hp => h p (List.mem_cons_of_mem x hp)
      have : joinSep ['\n'] (x :: y :: ys) = x ++ '\n' :: joinSep ['\n'] (y :: ys) := by
        simp [joinSep]
      rw [this, splitNL_append_newline x _ hx, ih (by simp) hrest]

theorem replaceFuel_nil (pat rep : List Char) (fuel : Nat) :
    replaceFuel pat rep fuel [] = [] := by
  cases fuel <;> rfl

/-- Scanning passes over a region that starts no occurrence of the
pattern, leaving it unchanged. -/
theorem replaceFuel_skip (pat rep : List Char) :
    ∀ (a rest : List Char) (fuel : Nat), noMatchInto pat a rest = true →
      a.length + rest.length ≤ fuel →
      replaceFuel pat rep fuel (a ++ rest) = a ++ replaceFuel pat rep (fuel - a.length) rest := by
  intro a
  induction a with
  | nil => intro rest fuel _ _; simp
  | cons c a2 ih =>
    intro rest fuel hno hlen
    match fuel with
    | 0 =>
      exfalso
      simp only [List.length_cons] at hlen
      omega
    | f + 1 =>
      have hpre : List.isPrefixOf pat (c :: (a2 ++ rest)) = false := by
        have := hno
        simp only [noMatchInto, Bool.and_eq_true, Bool.not_eq_true'] at this
        simpa using this.1
      have hno2 : noMatchInto pat a2 rest = true := by
        have := hno
        simp only [noMatchInto, Bool.and_eq_true] at this
        exact this.2
      simp only [List.cons_append, List.append_eq, replaceFuel, hpre, Bool.false_eq_true,
        if_false]
      rw [ih rest f hno2 (by simp only [List.length_cons] at hlen; omega)]
      have harith : f + 1 - (c :: a2).length = f - a2.length := by
        simp only [List.length_cons]
        omega
      rw [harith]

/-- Scanning at an occurrence of the pattern replaces it and resumes
after it. -/
theorem replaceFuel_match (pat rep : List Char) (hpat : pat ≠ []) :
    ∀ (rest : List Char) (f : Nat),
      replaceFuel pat rep (f + 1) (pat ++ rest) = rep ++ replaceFuel pat rep f rest := by
  intro rest f
  match hp : pat, hpat with
  | p0 :: pt, _ =>
    have hpre : List.isPrefixOf (p0 :: pt) (p0 :: (pt ++ rest)) = true := by
      rw [List.isPrefixOf_iff_prefix]
      exact List.prefix_append (p0 :: pt) rest
    simp only [List.cons_append, List.append_eq, replaceFuel, hpre, if_true]
    have hdrop : List.drop (p0 :: pt).length ((p0 :: pt) ++ rest) = rest := List.drop_left _ _
    simp only [List.cons_append] at hdrop
    rw [hdrop]

theorem replaceFuel_joinSep (pat rep : List Char) (hpat : pat ≠ []) :
    ∀ (parts : List (List Char)) (fuel : Nat), cleanJoin pat parts = true →
      (joinSep pat parts).length ≤ fuel →
      replaceFuel pat rep fuel (joinSep pat parts) = joinSep rep parts := by
  intro parts
  induction parts with
  | nil => intro fuel _ _; simp [joinSep, replaceFuel_nil]
  | cons x xs ih =>
    cases xs with
    | nil =>
      intro fuel hclean hlen
      simp only [joinSep] at hlen ⊢
      have h2 := replaceFuel_skip pat rep x [] fuel (by simpa [cleanJoin] using hclean)
        (by simpa using hlen)
      simpa [replaceFuel_nil] using h2
    | cons y ys =>
      intro fuel hclean hlen
      have hclean1 : noMatchInto pat x (pat ++ joinSep pat (y :: ys)) = true := by
        have := hclean
        simp only [cleanJoin, Bool.and_eq_true] at this
        exact this.1
      have hclean2 : cleanJoin pat (y :: ys) = true := by
        have := hclean
        simp only [cleanJoin, Bool.and_eq_true] at this
        exact this.2
      have hjoin : joinSep pat (x :: y :: ys) = x ++ (pat ++ joinSep pat (y :: ys)) := by
        simp [joinSep]
      have hlen' : x.length + (pat ++ joinSep pat (y :: ys)).length ≤ fuel := by
        rw [hjoin] at hlen
        simpa using hlen
      rw [hjoin, replaceFuel_skip pat rep x _ fuel hclean1 hlen']
      have hfx : pat.length + (joinSep pat (y :: ys)).length ≤ fuel - x.length := by
        simp only [List.length_append] at hlen'
        omega
      have hpat1 : 1 ≤ pat.length := by
        cases pat with
        | nil => exact absurd rfl hpat
        | cons p ps => simp
      obtain ⟨g, hg⟩ : ∃ g, fuel - x.length = g + 1 := ⟨fuel - x.length - 1, by omega⟩
      rw [hg, replaceFuel_match pat rep hpat _ g, ih g hclean2 (by omega)]
      simp [joinSep]

/-- Replacing a non-empty pattern in a cleanly decomposed string
replaces every occurrence: the join along the pattern becomes the join
along the replacement. -/
theorem pyReplace_joinSep (pat rep : List Char) (hpat : pat ≠ [])
    (parts : List (List Char)) (hclean : cleanJoin pat parts = true) :
    pyReplace (joinSep pat parts) pat rep = joinSep rep parts :=
  replaceFuel_joinSep pat rep hpat parts (joinSep pat parts).length hclean (Nat.le_refl _)

theorem wrapMsg_prefix_holds (msg : List Char) :
    List.isPrefixOf "Speech synthesis failed: ".data (wrapMsg msg) = true := by
  unfold wrapMsg
  rw [List.isPrefixOf_iff_prefix]
  exact List.prefix_append _ _

theorem wrapMsg_ne_bare (msg : List Char) :
    wrapMsg msg ≠ "No audio generated from text".data := by
  intro he
  have h1 : (wrapMsg msg).take 25 = "Speech synthesis failed: ".data := by
    unfold wrapMsg
    exact List.take_left' (by decide)
  rw [he] at h1
  exact absurd h1 (by decide)

/-! ## The claims -/

/-- C3: for every request to `/synthesize` made while the engine handle
is unset, the handler fails with status 503, regardless of the request's
text, voice or language fields: the guard at lines 94-98 precedes all
input validation. -/
theorem c3_unset_pipeline_503 {α : Type} (toF32 : α → α) (enc : α → List Nat)
    (req : TTSRequest) :
    synthesize_speech toF32 enc none req =
      SynthResult.failure 503
        "TTS pipeline not initialized. Please wait for service to start.".data :=
  rfl

/-- C8: a payload with zero commit records formats to exactly the single
placeholder line and nothing else, and the same single placeholder line
is printed when the event-path environment variable is unset. -/
theorem c8_zero_commits_placeholder :
    formatCommits [] = "- (no commits found)".data
    ∧ splitNL (formatCommits []) = ["- (no commits found)".data]
    ∧ (∀ commits : List Commit, get_commits none commits = "- (no commits found)".data) :=
  ⟨rfl, by decide, fun _ => rfl⟩

/-- C9: the webhook poster truncates the content if and only if its
length exceeds 2000 characters; the truncated form is the first 1997
characters followed by "..." for a total of exactly 2000; content of
length at most 2000 is posted unchanged. -/
theorem c9_content_truncation (content : List Char) :
    (2000 < content.length →
      post_webhook_content content = content.take 1997 ++ "...".data
      ∧ (post_webhook_content content).length = 2000)
    ∧ (content.length ≤ 2000 → post_webhook_content content = content)
    ∧ (post_webhook_content content ≠ content ↔ 2000 < content.length) := by
  by_cases h : 2000 < content.length
  · have heq : post_webhook_content content = content.take 1997 ++ "...".data := by
      simp [post_webhook_content, h]
    have hl : (post_webhook_content content).length = 2000 := by
      rw [heq]
      simp only [List.length_append, List.length_take, List.length_cons, List.length_nil]
      omega
    have hneq : post_webhook_content content ≠ content := by
      intro he
      rw [he] at hl
      omega
    exact ⟨fun _ => ⟨heq, hl⟩, fun hle => absurd h (Nat.not_lt.mpr hle),
      ⟨fun _ => h, fun _ => hneq⟩⟩
  · have heq : post_webhook_content content = content := by
      simp [post_webhook_content, h]
    exact ⟨fun hgt => absurd hgt h, fun _ => heq,
      ⟨fun hne => absurd heq hne, fun hgt => absurd hgt h⟩⟩

theorem c9_witness :
    post_webhook_content (List.replicate 2001 'x') =
      (List.replicate 2001 'x').take 1997 ++ "...".data
    ∧ (post_webhook_content (List.replicate 2001 'x')).length = 2000 :=
  (c9_content_truncation (List.replicate 2001 'x')).1
    (by rw [List.length_replicate]; omega)

/-- C2: with the engine handle set, empty or whitespace-only text fails
with status 400; text longer than 5000 characters fails with status 400
(the blank check runs first, so a blank over-long text gets the blank
detail); non-blank text of at most 5000 characters proceeds to the
engine invocation. -/
theorem c2_validation {α : Type} (toF32 : α → α) (enc : α → List Nat)
    (engine : Engine α) (req : TTSRequest) :
    ((req.text = [] ∨ pyStrip req.text = []) →
      synthesize_speech toF32 enc (some engine) req =
        SynthResult.failure 400 "Text cannot be empty".data)
    ∧ (5000 < req.text.length →
      (synthesize_speech toF32 enc (some engine) req =
          SynthResult.failure 400 "Text cannot be empty".data
        ∨ synthesize_speech toF32 enc (some engine) req =
          SynthResult.failure 400 "Text too long (max 5000 characters)".data))
    ∧ ((req.text ≠ [] ∧ pyStrip req.text ≠ [] ∧ req.text.length ≤ 5000) →
      synthesize_speech toF32 enc (some engine) req =
        runSynthesis toF32 enc (engine req.text req.voice)) := by
  refine ⟨?_, ?_, ?_⟩
  · intro h
    simp only [synthesize_speech]
    rw [if_pos h]
  · intro hlen
    by_cases hb : req.text = [] ∨ pyStrip req.text = []
    · left
      simp only [synthesize_speech]
      rw [if_pos hb]
    · right
      simp only [synthesize_speech]
      rw [if_neg hb, if_pos hlen]
  · rintro ⟨h1, h2, h3⟩
    exact synthesize_speech_valid toF32 enc engine req h1 h2 h3

theorem c2_witness :
    synthesize_speech natId natEnc (some okEngine) reqBlank =
      SynthResult.failure 400 "Text cannot be empty".data
    ∧ (synthesize_speech natId natEnc (some okEngine) reqLong =
        SynthResult.failure 400 "Text cannot be empty".data
      ∨ synthesize_speech natId natEnc (some okEngine) reqLong =
        SynthResult.failure 400 "Text too long (max 5000 characters)".data)
    ∧ synthesize_speech natId natEnc (some okEngine) reqHi =
        runSynthesis natId natEnc (okEngine reqHi.text reqHi.voice) :=
  ⟨(c2_validation natId natEnc okEngine reqBlank).1 (Or.inr (by decide)),
   (c2_validation natId natEnc okEngine reqLong).2.1
     (by show 5000 < (List.replicate 5001 'a').length; rw [List.length_replicate]; omega),
   (c2_validation natId natEnc okEngine reqHi).2.2 ⟨by decide, by decide, by decide⟩⟩

/-- C4: a validated request whose engine invocation yields only empty or
`None` segments fails with status 500 and a non-empty explanatory detail
(the wrapped form of the inner "No audio generated from text" message);
the result is a failure, so no audio body is returned. -/
theorem c4_empty_output_500 {α : Type} (toF32 : α → α) (enc : α → List Nat)
    (engine : Engine α) (req : TTSRequest) (out : EngineOutput α)
    (hrun : engine req.text req.voice = Except.ok out)
    (h1 : req.text ≠ []) (h2 : pyStrip req.text ≠ []) (h3 : req.text.length ≤ 5000)
    (hempty : specSegments out.chunks = []) :
    synthesize_speech toF32 enc (some engine) req =
      SynthResult.failure 500
        "Speech synthesis failed: 500: No audio generated from text".data
    ∧ "Speech synthesis failed: 500: No audio generated from text".data ≠ [] := by
  constructor
  · rw [synthesize_speech_valid toF32 enc engine req h1 h2 h3, hrun]
    simp only [runSynthesis]
    rw [collectChunks_eq_specSegments, hempty,
      if_pos (show (([] : List (List α)).isEmpty = true) from rfl)]
    decide
  · decide

theorem c4_witness :
    synthesize_speech natId natEnc (some emptyEngine) reqHi =
      SynthResult.failure 500
        "Speech synthesis failed: 500: No audio generated from text".data
    ∧ "Speech synthesis failed: 500: No audio generated from text".data ≠ [] :=
  c4_empty_output_500 natId natEnc emptyEngine reqHi
    { dtype := Dtype.float32
      chunks := [{ gs := [], ps := [], audio := none },
                 { gs := [], ps := [], audio := some [] }] }
    rfl (by decide) (by decide) (by decide) (by decide)

/-- C10: every 500 failure of the `/synthesize` handler carries a detail
beginning with "Speech synthesis failed: ", because the inner 500 for
zero non-empty segments is raised inside the `try` block and re-wrapped
by the `except Exception` branch; in particular the empty-output detail
is the wrapped form, never the bare "No audio generated from text". -/
theorem c10_wrapped_500_details {α : Type} (toF32 : α → α) (enc : α → List Nat)
    (pipeline : Option (Engine α)) (req : TTSRequest) (d : List Char)
    (h : synthesize_speech toF32 enc pipeline req = SynthResult.failure 500 d) :
    List.isPrefixOf "Speech synthesis failed: ".data d = true
    ∧ d ≠ "No audio generated from text".data := by
  cases pipeline with
  | none =>
    exfalso
    simp only [synthesize_speech, SynthResult.failure.injEq] at h
    exact absurd h.1 (by decide)
  | some engine =>
    simp only [synthesize_speech] at h
    by_cases hb : req.text = [] ∨ pyStrip req.text = []
    · rw [if_pos hb] at h
      exfalso
      simp only [SynthResult.failure.injEq] at h
      exact absurd h.1 (by decide)
    · rw [if_neg hb] at h
      by_cases hl : 5000 < req.text.length
      · rw [if_pos hl] at h
        exfalso
        simp only [SynthResult.failure.injEq] at h
        exact absurd h.1 (by decide)
      · rw [if_neg hl] at h
        cases hr : engine req.text req.voice with
        | error msg =>
          rw [hr] at h
          simp only [runSynthesis, SynthResult.failure.injEq] at h
          obtain ⟨-, hd⟩ := h
          subst hd
          exact ⟨wrapMsg_prefix_holds msg, wrapMsg_ne_bare msg⟩
        | ok out =>
          rw [hr] at h
          simp only [runSynthesis] at h
          by_cases he : (collectChunks out.chunks).isEmpty
          · rw [if_pos he] at h
            simp only [SynthResult.failure.injEq] at h
            obtain ⟨-, hd⟩ := h
            subst hd
            exact ⟨wrapMsg_prefix_holds _, wrapMsg_ne_bare _⟩
          · rw [if_neg he] at h
            exact SynthResult.noConfusion h

theorem c10_witness :
    List.isPrefixOf "Speech synthesis failed: ".data
      "Speech synthesis failed: boom".data = true
    ∧ "Speech synthesis failed: boom".data ≠ "No audio generated from text".data :=
  c10_wrapped_500_details natId natEnc (some errEngine) reqHi
    "Speech synthesis failed: boom".data (by decide)

/-- C1: a validated request whose engine invocation yields at least one
non-empty segment returns the success response whose body is the WAV
container at a 24000 Hz sample rate over the float32-converted
concatenation of exactly the non-empty segments, in the order the
engine yielded them; the container's sample-rate field (bytes 24-27)
declares 24000; and the Content-Length header equals the byte length of
the returned body. -/
theorem c1_success_concat_wav {α : Type} (toF32 : α → α) (enc : α → List Nat)
    (engine : Engine α) (req : TTSRequest) (out : EngineOutput α)
    (hrun : engine req.text req.voice = Except.ok out)
    (h1 : req.text ≠ []) (h2 : pyStrip req.text ≠ []) (h3 : req.text.length ≤ 5000)
    (hne : specSegments out.chunks ≠ []) :
    synthesize_speech toF32 enc (some engine) req =
      SynthResult.success
        { content := wavBytes enc 24000
            (convertF32 toF32 out.dtype (specSegments out.chunks).flatten)
          media_type := "audio/wav".data
          content_disposition := "attachment; filename=tts_output.wav".data
          content_length := (wavBytes enc 24000
            (convertF32 toF32 out.dtype (specSegments out.chunks).flatten)).length }
    ∧ ((wavBytes enc 24000
          (convertF32 toF32 out.dtype (specSegments out.chunks).flatten)).drop 24).take 4
        = u32le 24000
    ∧ contentLengthOk (synthesize_speech toF32 enc (some engine) req) = true := by
  have hmain : synthesize_speech toF32 enc (some engine) req =
      SynthResult.success
        { content := wavBytes enc 24000
            (convertF32 toF32 out.dtype (specSegments out.chunks).flatten)
          media_type := "audio/wav".data
          content_disposition := "attachment; filename=tts_output.wav".data
          content_length := (wavBytes enc 24000
            (convertF32 toF32 out.dtype (specSegments out.chunks).flatten)).length } := by
    rw [synthesize_speech_valid toF32 enc engine req h1 h2 h3, hrun]
    simp only [runSynthesis]
    rw [collectChunks_eq_specSegments,
      if_neg (by simp [List.isEmpty_iff, hne])]
  refine ⟨hmain, wavBytes_sampleRate_field enc 24000 _, ?_⟩
  rw [hmain]
  simp [contentLengthOk]

theorem c1_witness :
    synthesize_speech natId natEnc (some okEngine) reqHi =
      SynthResult.success
        { content := wavBytes natEnc 24000
            (convertF32 natId okOut.dtype (specSegments okOut.chunks).flatten)
          media_type := "audio/wav".data
          content_disposition := "attachment; filename=tts_output.wav".data
          content_length := (wavBytes natEnc 24000
            (convertF32 natId okOut.dtype (specSegments okOut.chunks).flatten)).length }
    ∧ ((wavBytes natEnc 24000
          (convertF32 natId okOut.dtype (specSegments okOut.chunks).flatten)).drop 24).take 4
        = u32le 24000
    ∧ contentLengthOk (synthesize_speech natId natEnc (some okEngine) reqHi) = true :=
  c1_success_concat_wav natId natEnc okEngine reqHi okOut rfl (by decide) (by decide)
    (by decide) (by decide)

/-- C5 (counterexample): the claim "output contains exactly 5 lines"
fails as stated: a six-commit payload whose first record has a
newline inside its 7-character id makes the printed output span 6
lines. -/
theorem c5_counterexample :
    5 < newlinePayload.length
    ∧ (splitNL (formatCommits newlinePayload)).length ≠ 5 := by
  decide

/-- C5 (amended): for every payload with more than 5 commit records
whose first five formatted lines are newline-free (as is the case
whenever ids and urls contain no newline), the formatter's output
consists of exactly 5 lines: the formatted first 5 records in their
original order. -/
theorem c5_first_five_lines (commits : List Commit) (h5 : 5 < commits.length)
    (hnl : ∀ c ∈ commits.take 5, '\n' ∉ formatCommit c) :
    splitNL (formatCommits commits) = (commits.take 5).map formatCommit
    ∧ (splitNL (formatCommits commits)).length = 5 := by
  have hlen5 : (commits.take 5).length = 5 := by
    rw [List.length_take]
    omega
  have hlines_ne : (commits.take 5).map formatCommit ≠ [] := by
    intro he
    have hl := congrArg List.length he
    rw [List.length_map, hlen5] at hl
    exact absurd hl (by decide)
  have hfc : formatCommits commits =
      joinSep ['\n'] ((commits.take 5).map formatCommit) := by
    simp only [formatCommits]
    rw [if_neg (by simp only [List.isEmpty_iff]; exact hlines_ne)]
  have hsplit : splitNL (formatCommits commits) = (commits.take 5).map formatCommit := by
    rw [hfc]
    refine splitNL_joinSep _ hlines_ne ?_
    intro p hp
    obtain ⟨c, hc, rfl⟩ := List.mem_map.mp hp
    exact hnl c hc
  exact ⟨hsplit, by rw [hsplit, List.length_map, hlen5]⟩

set_option maxRecDepth 10000 in
theorem c5_witness :
    splitNL (formatCommits sixCommitPayload) =
      (sixCommitPayload.take 5).map formatCommit
    ∧ (splitNL (formatCommits sixCommitPayload)).length = 5 :=
  c5_first_five_lines sixCommitPayload (by decide) (by decide)

set_option maxRecDepth 10000 in
/-- C6 (counterexample): the claim "a message longer than 120 characters
is truncated to exactly 120 characters in the formatted line" fails as
stated: a 123-character multi-line message whose first line has a single
character contributes a 1-character message text to the line. -/
theorem c6_counterexample :
    120 < shortFirstLineMsg.length
    ∧ (displayMsg shortFirstLineMsg).length ≠ 120 := by
  decide

/-- C6 (amended): only the first line of a multi-line commit message
appears in the formatted display line, and the 120-character truncation
applies to that first line: a first line longer than 120 characters
appears as exactly its first 120 characters, a shorter one appears
unchanged. -/
theorem c6_first_line_truncation (id url l1 rest : List Char) (h : '\n' ∉ l1) :
    formatCommit { id := id, message := l1 ++ '\n' :: rest, url := url } =
      "- [`".data ++ id.take 7 ++ "`](".data ++ rewriteUrl url ++ ") ".data
        ++ l1.take 120
    ∧ (120 < l1.length → (displayMsg (l1 ++ '\n' :: rest)).length = 120)
    ∧ (l1.length ≤ 120 → displayMsg (l1 ++ '\n' :: rest) = l1) := by
  have hd : displayMsg (l1 ++ '\n' :: rest) = l1.take 120 := by
    unfold displayMsg
    rw [splitNL_append_newline l1 rest h]
    rfl
  refine ⟨?_, ?_, ?_⟩
  · simp only [formatCommit]
    rw [hd]
  · intro hgt
    rw [hd, List.length_take]
    omega
  · intro hle
    rw [hd]
    exact List.take_of_length_le hle

set_option maxRecDepth 10000 in
theorem c6_witness :
    formatCommit { id := "abcdef1".data, message := longFirstLine ++ '\n' :: ['t'], url := "u".data } =
      "- [`".data ++ ("abcdef1".data).take 7 ++ "`](".data ++ rewriteUrl "u".data
        ++ ") ".data ++ longFirstLine.take 120
    ∧ (120 < longFirstLine.length →
        (displayMsg (longFirstLine ++ '\n' :: ['t'])).length = 120)
    ∧ (longFirstLine.length ≤ 120 →
        displayMsg (longFirstLine ++ '\n' :: ['t']) = longFirstLine) :=
  c6_first_line_truncation "abcdef1".data "u".data longFirstLine ['t'] (by decide)

/-- C7: the URL rewrite is the deterministic composition of the two
textual replacements, and it replaces every occurrence of both
patterns: a URL joined along `api.github.com/repos` (cleanly, so the
separator copies are exactly the occurrences) has all of them become
`github.com`, and the intermediate result joined along `/commits/` has
all of those become `/commit/`. -/
theorem c7_rewrite_replaces_every_occurrence (partsA partsB : List (List Char))
    (hcA : cleanJoin "api.github.com/repos".data partsA = true)
    (hmid : joinSep "github.com".data partsA = joinSep "/commits/".data partsB)
    (hcB : cleanJoin "/commits/".data partsB = true) :
    rewriteUrl (joinSep "api.github.com/repos".data partsA) =
      joinSep "/commit/".data partsB := by
  unfold rewriteUrl
  rw [pyReplace_joinSep _ _ (by decide) partsA hcA, hmid,
    pyReplace_joinSep _ _ (by decide) partsB hcB]

theorem c7_witness :
    rewriteUrl "https://api.github.com/repos/o/r/commits/abc".data =
      "https://github.com/o/r/commit/abc".data := by
  have e1 : "https://api.github.com/repos/o/r/commits/abc".data =
      joinSep "api.github.com/repos".data urlPartsA := by
    decide
  have e2 : joinSep "/commit/".data urlPartsB =
      "https://github.com/o/r/commit/abc".data := by
    decide
  rw [e1, c7_rewrite_replaces_every_occurrence urlPartsA urlPartsB (by decide)
    (by decide) (by decide), e2]
